import Mathlib

/-
Verification of the DraftKings roster optimizer (src/optimize_roster.py).

The optimizer builds an integer program with one binary variable per
(player index, position) pair where the position is both a key of the
position-requirements dict and a member of the player's compound
"Roster Position" string split on "/" with each part stripped.  The model
carries a salary-cap constraint, a once-per-player constraint, an exact
count constraint per position, and one overlap constraint per previous
lineup that owns at least one variable.  The external solver (pulp) is
modelled as a function from the built model to either a failure message
(a raised exception, which the source does not catch) or a status code
plus one Boolean value per decision variable, in variable-creation order.
-/

namespace DfOpt

/-- One row of the players table: the columns `optimize_roster` reads.
Numeric columns are modelled as exact integers (the source reads floats;
nothing in the optimizer's control flow depends on fractional values). -/
structure Player where
  rosterPosition : String
  avgPointsPerGame : Int
  salary : Int
deriving DecidableEq, Repr

abbrev VarKey := Nat × String

def defaultPlayer : Player := { rosterPosition := "", avgPointsPerGame := 0, salary := 0 }

/-- Row lookup `players_df.loc[idx, ...]` with the list position as index. -/
def playerAt (players : List Player) (i : Nat) : Player :=
  players.getD i defaultPlayer

/-- Python list splitting: `s.split(c)` keeps empty parts, `"".split(c) = [""]`. -/
def splitOnChar (c : Char) : List Char → List (List Char)
  | [] => [[]]
  | x :: xs =>
    if x = c then [] :: splitOnChar c xs
    else
      match splitOnChar c xs with
      | [] => [[x]]
      | h :: t => (x :: h) :: t

/-- Python `str.strip()`: drop whitespace from both ends. -/
def stripChars (l : List Char) : List Char :=
  ((l.dropWhile Char.isWhitespace).reverse.dropWhile Char.isWhitespace).reverse

/-- Line 59 of the source: `[p.strip() for p in roster_pos.split('/')]`. -/
def eligiblePositions (rosterPos : String) : List String :=
  (splitOnChar '/' rosterPos.toList).map (fun cs => String.mk (stripChars cs))

/-- Lines 57-64: one binary variable per (player index, position) pair with the
position among the requirement keys and the player's available positions,
players outer, requirement keys inner, in order. -/
def varKeys (players : List Player) (reqs : List (String × Int)) : List VarKey :=
  (List.range players.length).flatMap (fun idx =>
    reqs.flatMap (fun pc =>
      if pc.1 ∈ eligiblePositions (playerAt players idx).rosterPosition
      then [(idx, pc.1)] else []))

/-- Line 99: `total_players = sum(position_requirements.values())`. -/
def totalSize (reqs : List (String × Int)) : Int :=
  (reqs.map Prod.snd).sum

/-- The constraint model handed to the solver, as explicit data. -/
structure Model where
  players : List Player
  reqs : List (String × Int)
  maxSalary : Int
  varKeys : List VarKey
  divConstraints : List (List VarKey × Int)
  warnedPositions : List String
deriving Repr

/-- Lines 51-109: the model construction.  `warnedPositions` records the
positions for which line 89 prints its WARNING (no variables exist);
`divConstraints` records, for each previous lineup whose indices own at
least one variable, the pair (overlap variables, max_overlap). -/
def buildModel (players : List Player) (reqs : List (String × Int)) (maxSalary : Int)
    (previousLineups : Option (List (List Nat))) (minDiff : Int) : Model :=
  let ks := varKeys players reqs
  { players := players
    reqs := reqs
    maxSalary := maxSalary
    varKeys := ks
    divConstraints :=
      match previousLineups with
      | none => []
      | some ls =>
        ls.filterMap (fun prev =>
          let overlapVars := ks.filter (fun k => decide (k.1 ∈ prev))
          if overlapVars.isEmpty then none
          else some (overlapVars, totalSize reqs - minDiff))
    warnedPositions :=
      (reqs.filter (fun pc => ks.countP (fun k => decide (k.2 = pc.1)) = 0)).map Prod.fst }

/-- The keys of the variables the solver set to 1, in creation order
(`vals` lists one Boolean per variable, aligned with `ks`). -/
def selectedKeys (ks : List VarKey) (vals : List Bool) : List VarKey :=
  ((ks.zip vals).filter (fun kb => kb.2)).map (fun kb => kb.1)

/-- Line 76: total selected salary is at most `max_salary`. -/
def SatSalary (m : Model) (vals : List Bool) : Prop :=
  (((m.varKeys.zip vals).map
      (fun kb => if kb.2 then (playerAt m.players kb.1.1).salary else 0)).sum) ≤ m.maxSalary

/-- Lines 79-82: each player is selected for at most one position. -/
def SatOnce (m : Model) (vals : List Bool) : Prop :=
  ∀ i ∈ List.range m.players.length,
    (m.varKeys.zip vals).countP (fun kb => kb.2 && decide (kb.1.1 = i)) ≤ 1

/-- Lines 85-92: exactly the required count of players per position. -/
def SatPos (m : Model) (vals : List Bool) : Prop :=
  ∀ pc ∈ m.reqs,
    (((m.varKeys.zip vals).countP (fun kb => kb.2 && decide (kb.1.2 = pc.1)) : Int)) = pc.2

/-- Lines 94-109: for each recorded diversity constraint, the number of
selected variables among its overlap variables is at most its bound. -/
def SatDiv (m : Model) (vals : List Bool) : Prop :=
  ∀ dc ∈ m.divConstraints,
    (((m.varKeys.zip vals).countP (fun kb => kb.2 && decide (kb.1 ∈ dc.1)) : Int)) ≤ dc.2

/-- A variable assignment that satisfies every constraint of the model. -/
def Satisfies (m : Model) (vals : List Bool) : Prop :=
  vals.length = m.varKeys.length ∧ SatSalary m vals ∧ SatOnce m vals ∧ SatPos m vals ∧ SatDiv m vals

instance (m : Model) (vals : List Bool) : Decidable (Satisfies m vals) := by
  unfold Satisfies SatSalary SatOnce SatPos SatDiv
  infer_instance

/-- Line 67-70: the objective value of an assignment. -/
def objVal (m : Model) (vals : List Bool) : Int :=
  ((m.varKeys.zip vals).map
    (fun kb => if kb.2 then (playerAt m.players kb.1.1).avgPointsPerGame else 0)).sum

/-- The returned tuple of a successful solve, lines 118-134: rows of the
selected players annotated with the assigned position, the two totals, and
the `position_assignments` dict. -/
structure Selection where
  pairs : List VarKey
  rows : List (Player × String)
  positionAssignments : List (Nat × String)
  totalPoints : Int
  totalSalary : Int
deriving DecidableEq, Repr

/-- Python dict insertion `d[k] = v`: overwrite in place or append. -/
def assocSet (l : List (Nat × String)) (i : Nat) (pos : String) : List (Nat × String) :=
  if l.any (fun p => decide (p.1 = i)) then
    l.map (fun p => if p.1 = i then (i, pos) else p)
  else l ++ [(i, pos)]

/-- Lines 118-134: collect the variables with value 1, copy each player row,
annotate it with the assigned position, and sum points and salary over
exactly the collected rows. -/
def extractSelection (players : List Player) (ks : List VarKey) (vals : List Bool) : Selection :=
  let pairs := selectedKeys ks vals
  { pairs := pairs
    rows := pairs.map (fun k => (playerAt players k.1, k.2))
    positionAssignments := pairs.foldl (fun acc k => assocSet acc k.1 k.2) []
    totalPoints := (pairs.map (fun k => (playerAt players k.1).avgPointsPerGame)).sum
    totalSalary := (pairs.map (fun k => (playerAt players k.1).salary)).sum }

/-- Failures that escape `optimize_roster`: an uncaught solver exception
(line 112), or the pandas KeyError raised at line 131 when zero variables
have value 1 and the empty DataFrame has no AvgPointsPerGame column. -/
inductive RunError where
  | solverFailure (msg : String)
  | emptyFrameKeyError
deriving DecidableEq, Repr

instance {ε α : Type} [DecidableEq ε] [DecidableEq α] : DecidableEq (Except ε α) :=
  fun a b =>
    match a, b with
    | .error e, .error e' => decidable_of_iff (e = e') (by simp)
    | .ok x, .ok x' => decidable_of_iff (x = x') (by simp)
    | .error _, .ok _ => isFalse (by simp)
    | .ok _, .error _ => isFalse (by simp)

/-- The external solving capability: from the handed model, either a raised
exception or a status code with one value per decision variable. -/
abbrev Solver := Model → Except String (Int × List Bool)

/-- Lines 36-134: build the model, solve, return the None-tuple on any
non-optimal status (status code 1 means optimal), else extract. -/
def optimize_roster (players : List Player) (reqs : List (String × Int)) (maxSalary : Int)
    (previousLineups : Option (List (List Nat))) (minDiff : Int) (solver : Solver) :
    Except RunError (Option Selection) :=
  match solver (buildModel players reqs maxSalary previousLineups minDiff) with
  | .error e => .error (.solverFailure e)
  | .ok (status, vals) =>
    if status ≠ 1 then .ok none
    else
      if (selectedKeys (varKeys players reqs) vals).isEmpty then .error .emptyFrameKeyError
      else .ok (some (extractSelection players (varKeys players reqs) vals))

/-- Lines 325-349 of `main`: round `i` with `remaining` rounds left and the
accumulated previous index sets; returns the accumulated selections and
the number of rounds actually attempted.  Round `i` passes the previous
lineups only when `i > 0`; a `None` round stops the loop; a solver
exception propagates and aborts the run. -/
def mainLoopAux (players : List Player) (reqs : List (String × Int)) (maxSalary minDiff : Int)
    (solver : Solver) : Nat → Nat → List (List Nat) → Except RunError (List Selection × Nat)
  | 0, _, _ => .ok ([], 0)
  | n + 1, i, prevs =>
    match optimize_roster players reqs maxSalary (if 0 < i then some prevs else none) minDiff solver with
    | .error e => .error e
    | .ok none => .ok ([], 1)
    | .ok (some sel) =>
      match mainLoopAux players reqs maxSalary minDiff solver n (i + 1)
          (prevs ++ [sel.pairs.map Prod.fst]) with
      | .error e => .error e
      | .ok (ss, a) => .ok (sel :: ss, a + 1)

/-- The whole multi-lineup loop of `main`, starting at round 0 with no
previous lineups. -/
def runLineups (players : List Player) (reqs : List (String × Int)) (maxSalary minDiff : Int)
    (solver : Solver) (numLineups : Nat) : Except RunError (List Selection × Nat) :=
  mainLoopAux players reqs maxSalary minDiff solver numLineups 0 []

@[simp] lemma buildModel_players (p : List Player) (r : List (String × Int)) (b : Int)
    (pl : Option (List (List Nat))) (d : Int) : (buildModel p r b pl d).players = p := rfl

@[simp] lemma buildModel_reqs (p : List Player) (r : List (String × Int)) (b : Int)
    (pl : Option (List (List Nat))) (d : Int) : (buildModel p r b pl d).reqs = r := rfl

@[simp] lemma buildModel_maxSalary (p : List Player) (r : List (String × Int)) (b : Int)
    (pl : Option (List (List Nat))) (d : Int) : (buildModel p r b pl d).maxSalary = b := rfl

@[simp] lemma buildModel_varKeys (p : List Player) (r : List (String × Int)) (b : Int)
    (pl : Option (List (List Nat))) (d : Int) : (buildModel p r b pl d).varKeys = varKeys p r := rfl

lemma buildModel_divConstraints_none (p : List Player) (r : List (String × Int)) (b d : Int) :
    (buildModel p r b none d).divConstraints = [] := rfl

lemma buildModel_divConstraints_some (p : List Player) (r : List (String × Int)) (b d : Int)
    (ls : List (List Nat)) :
    (buildModel p r b (some ls) d).divConstraints
      = ls.filterMap (fun prev =>
          let overlapVars := (varKeys p r).filter (fun k => decide (k.1 ∈ prev))
          if overlapVars.isEmpty then none
          else some (overlapVars, totalSize r - d)) := rfl

@[simp] lemma extractSelection_pairs (p : List Player) (ks : List VarKey) (vals : List Bool) :
    (extractSelection p ks vals).pairs = selectedKeys ks vals := rfl

@[simp] lemma extractSelection_totalSalary (p : List Player) (ks : List VarKey) (vals : List Bool) :
    (extractSelection p ks vals).totalSalary
      = ((selectedKeys ks vals).map (fun k => (playerAt p k.1).salary)).sum := rfl

@[simp] lemma extractSelection_totalPoints (p : List Player) (ks : List VarKey) (vals : List Bool) :
    (extractSelection p ks vals).totalPoints
      = ((selectedKeys ks vals).map (fun k => (playerAt p k.1).avgPointsPerGame)).sum := rfl

/-- Unfolding `optimize_roster` when the solver raises. -/
lemma optimize_roster_solver_error {p : List Player} {r : List (String × Int)} {b : Int}
    {pl : Option (List (List Nat))} {d : Int} {solver : Solver} {e : String}
    (h : solver (buildModel p r b pl d) = .error e) :
    optimize_roster p r b pl d solver = .error (.solverFailure e) := by
  unfold optimize_roster
  rw [h]

/-- Unfolding `optimize_roster` on a non-optimal status: the None-tuple. -/
lemma optimize_roster_not_optimal {p : List Player} {r : List (String × Int)} {b : Int}
    {pl : Option (List (List Nat))} {d : Int} {solver : Solver} {st : Int} {vals : List Bool}
    (h : solver (buildModel p r b pl d) = .ok (st, vals)) (hst : st ≠ 1) :
    optimize_roster p r b pl d solver = .ok none := by
  unfold optimize_roster
  rw [h]
  simp [hst]

/-- Unfolding `optimize_roster` on an optimal status with a non-empty selection. -/
lemma optimize_roster_optimal {p : List Player} {r : List (String × Int)} {b : Int}
    {pl : Option (List (List Nat))} {d : Int} {solver : Solver} {vals : List Bool}
    (h : solver (buildModel p r b pl d) = .ok (1, vals))
    (hne : selectedKeys (varKeys p r) vals ≠ []) :
    optimize_roster p r b pl d solver = .ok (some (extractSelection p (varKeys p r) vals)) := by
  unfold optimize_roster
  rw [h]
  simp [List.isEmpty_iff, hne]

/-- Unfolding `optimize_roster` on an optimal status with an empty selection:
line 131 raises a KeyError on the empty DataFrame. -/
lemma optimize_roster_optimal_empty {p : List Player} {r : List (String × Int)} {b : Int}
    {pl : Option (List (List Nat))} {d : Int} {solver : Solver} {vals : List Bool}
    (h : solver (buildModel p r b pl d) = .ok (1, vals))
    (he : selectedKeys (varKeys p r) vals = []) :
    optimize_roster p r b pl d solver = .error .emptyFrameKeyError := by
  unfold optimize_roster
  rw [h]
  simp [List.isEmpty_iff, he]

/-- On an optimal status, a returned Selection is the extraction of the
solver's variable values. -/
lemma result_some_eq {p : List Player} {r : List (String × Int)} {b : Int}
    {pl : Option (List (List Nat))} {d : Int} {solver : Solver} {vals : List Bool} {sel : Selection}
    (hsolve : solver (buildModel p r b pl d) = .ok (1, vals))
    (hres : optimize_roster p r b pl d solver = .ok (some sel)) :
    sel = extractSelection p (varKeys p r) vals := by
  by_cases he : selectedKeys (varKeys p r) vals = []
  · rw [optimize_roster_optimal_empty hsolve he] at hres
    exact absurd hres (by simp)
  · rw [optimize_roster_optimal hsolve he] at hres
    exact (Option.some.inj (Except.ok.inj hres)).symm

/-- Counting over the selected keys equals counting the true variables. -/
lemma countP_selectedKeys (ks : List VarKey) (vals : List Bool) (q : VarKey → Bool) :
    (selectedKeys ks vals).countP q
      = (ks.zip vals).countP (fun kb => kb.2 && q kb.1) := by
  unfold selectedKeys
  rw [List.countP_map, List.countP_filter]
  exact List.countP_congr (fun kb _ => by cases h : kb.2 <;> simp [Function.comp, h])

/-- Summing a function over the selected keys equals the guarded sum over
all variables. -/
lemma sum_selectedKeys {γ : Type} [AddCommMonoid γ] (f : VarKey → γ) (ks : List VarKey)
    (vals : List Bool) :
    ((selectedKeys ks vals).map f).sum
      = ((ks.zip vals).map (fun kb => if kb.2 then f kb.1 else 0)).sum := by
  unfold selectedKeys
  rw [List.map_map]
  generalize ks.zip vals = l
  induction l with
  | nil => simp
  | cons kb t ih => cases h : kb.2 <;> simp [List.filter_cons, h, ih]

lemma mem_of_mem_selectedKeys {ks : List VarKey} {vals : List Bool} {k : VarKey}
    (h : k ∈ selectedKeys ks vals) : k ∈ ks := by
  unfold selectedKeys at h
  simp only [List.mem_map, List.mem_filter] at h
  obtain ⟨kb, ⟨hz, _⟩, hk⟩ := h
  exact hk ▸ (List.of_mem_zip hz).1

/-- Membership in the variable list matches the source's creation rule. -/
lemma mem_varKeys {players : List Player} {reqs : List (String × Int)} {k : VarKey} :
    k ∈ varKeys players reqs
      ↔ k.1 < players.length ∧ k.2 ∈ reqs.map Prod.fst
          ∧ k.2 ∈ eligiblePositions (playerAt players k.1).rosterPosition := by
  unfold varKeys
  simp only [List.mem_flatMap, List.mem_range]
  constructor
  · rintro ⟨idx, hidx, pc, hpc, hk⟩
    by_cases hc : pc.1 ∈ eligiblePositions (playerAt players idx).rosterPosition
    · rw [if_pos hc] at hk
      simp only [List.mem_singleton] at hk
      subst hk
      exact ⟨hidx, List.mem_map_of_mem Prod.fst hpc, hc⟩
    · rw [if_neg hc] at hk
      exact absurd hk (List.not_mem_nil _)
  · rintro ⟨hlt, hkey, helig⟩
    refine ⟨k.1, hlt, ?_⟩
    obtain ⟨pc, hpc, hfst⟩ := List.mem_map.mp hkey
    refine ⟨pc, hpc, ?_⟩
    rw [hfst, if_pos (hfst ▸ helig)]
    rw [List.mem_singleton]

lemma varKeys_fst_lt {players : List Player} {reqs : List (String × Int)} {k : VarKey}
    (h : k ∈ varKeys players reqs) : k.1 < players.length :=
  (mem_varKeys.mp h).1

/-- Concrete inputs used to instantiate theorems with hypotheses. -/
def wPlayerA : Player := { rosterPosition := "A", avgPointsPerGame := 10, salary := 5 }

def wPlayerA2 : Player := { rosterPosition := "A", avgPointsPerGame := 10, salary := 6 }

def wPlayerB : Player := { rosterPosition := "B", avgPointsPerGame := 8, salary := 4 }

def wReqsA : List (String × Int) := [("A", 1)]

def wReqsAB : List (String × Int) := [("A", 1), ("B", 1)]

/-- Claim C1: on an optimal solve whose variable values satisfy the model's
constraints (the contract of the external solver), any Selection returned by
`optimize_roster` has total salary at most `max_salary`, exactly the required
number of assignment pairs per requirement category, and no player index in
more than one pair. -/
theorem claim_C1_selection_invariants
    {players : List Player} {reqs : List (String × Int)} {maxSalary : Int}
    {prevs : Option (List (List Nat))} {minDiff : Int} {solver : Solver}
    {vals : List Bool} {sel : Selection}
    (hsolve : solver (buildModel players reqs maxSalary prevs minDiff) = .ok (1, vals))
    (hsat : Satisfies (buildModel players reqs maxSalary prevs minDiff) vals)
    (hres : optimize_roster players reqs maxSalary prevs minDiff solver = .ok (some sel)) :
    sel.totalSalary ≤ maxSalary
      ∧ (∀ pc ∈ reqs, ((sel.pairs.countP (fun k => decide (k.2 = pc.1)) : Int)) = pc.2)
      ∧ (∀ i : Nat, sel.pairs.countP (fun k => decide (k.1 = i)) ≤ 1) := by
  obtain ⟨hlen, hsal, honce, hpos, hdiv⟩ := hsat
  simp only [SatSalary, buildModel_varKeys, buildModel_players, buildModel_maxSalary] at hsal
  simp only [SatOnce, buildModel_varKeys, buildModel_players] at honce
  simp only [SatPos, buildModel_varKeys, buildModel_reqs] at hpos
  have hsel := result_some_eq hsolve hres
  subst hsel
  refine ⟨?_, ?_, ?_⟩
  · rw [extractSelection_totalSalary, sum_selectedKeys]
    exact hsal
  · intro pc hpc
    simp only [extractSelection_pairs, countP_selectedKeys]
    exact hpos pc hpc
  · intro i
    simp only [extractSelection_pairs]
    by_cases hi : i < players.length
    · rw [countP_selectedKeys]
      exact honce i (List.mem_range.mpr hi)
    · rw [List.countP_eq_zero.mpr]
      · exact Nat.zero_le 1
      · intro k hk
        have hlt := varKeys_fst_lt (mem_of_mem_selectedKeys hk)
        simp only [decide_eq_true_eq]
        omega

/-- Claim C1 witness at a one-player, one-category instance. -/
theorem claim_C1_witness :
    Satisfies (buildModel [wPlayerA] wReqsA 10 none 3) [true]
      ∧ ((extractSelection [wPlayerA] (varKeys [wPlayerA] wReqsA) [true]).totalSalary ≤ 10
          ∧ (∀ pc ∈ wReqsA,
              (((extractSelection [wPlayerA] (varKeys [wPlayerA] wReqsA) [true]).pairs.countP
                  (fun k => decide (k.2 = pc.1)) : Int)) = pc.2)
          ∧ (∀ i : Nat,
              (extractSelection [wPlayerA] (varKeys [wPlayerA] wReqsA) [true]).pairs.countP
                  (fun k => decide (k.1 = i)) ≤ 1)) :=
  ⟨by decide,
    @claim_C1_selection_invariants [wPlayerA] wReqsA 10 none 3 (fun _ => .ok (1, [true])) [true]
      (extractSelection [wPlayerA] (varKeys [wPlayerA] wReqsA) [true])
      (rfl) (by decide) (by decide)⟩

/-- Claim C4: a solver failure (raised exception) propagates out of
`optimize_roster` as `RunError.solverFailure`, an outcome different from the
infeasible outcome `.ok none`, and it aborts the whole multi-lineup run. -/
theorem claim_C4_solver_failure_distinguishable
    {players : List Player} {reqs : List (String × Int)} {b : Int}
    {prevs : Option (List (List Nat))} {minDiff : Int} {solver : Solver} {e : String}
    (hcrash : solver (buildModel players reqs b prevs minDiff) = .error e) :
    optimize_roster players reqs b prevs minDiff solver = .error (.solverFailure e)
      ∧ (.error (.solverFailure e) : Except RunError (Option Selection)) ≠ .ok none
      ∧ (∀ (n i : Nat) (prevAcc : List (List Nat)),
          (if 0 < i then some prevAcc else none) = prevs →
          mainLoopAux players reqs b minDiff solver (n + 1) i prevAcc
            = .error (.solverFailure e)) := by
  refine ⟨optimize_roster_solver_error hcrash, by simp, ?_⟩
  intro n i prevAcc hcond
  have h2 : optimize_roster players reqs b (if 0 < i then some prevAcc else none) minDiff solver
      = .error (.solverFailure e) := by
    rw [hcond]
    exact optimize_roster_solver_error hcrash
  simp only [mainLoopAux]
  rw [h2]

/-- Claim C4 witness: a crashing solver at round 0 of a one-player instance. -/
theorem claim_C4_witness :
    optimize_roster [wPlayerA] wReqsA 10 none 3 (fun _ => .error "CBC crashed")
        = .error (.solverFailure "CBC crashed")
      ∧ (.error (.solverFailure "CBC crashed") : Except RunError (Option Selection)) ≠ .ok none
      ∧ (∀ (n i : Nat) (prevAcc : List (List Nat)),
          (if 0 < i then some prevAcc else none) = (none : Option (List (List Nat))) →
          mainLoopAux [wPlayerA] wReqsA 10 3 (fun _ => .error "CBC crashed") (n + 1) i prevAcc
            = .error (.solverFailure "CBC crashed")) :=
  claim_C4_solver_failure_distinguishable (rfl)

/-- Claim C3 counterexample: with a negative budget, a zero quota count and
`min_diff` exceeding the total size all at once, no validation error is
raised: the model is still handed to the solver (a crashing solver decides
the outcome), and an infeasible-reporting solver yields the ordinary
None-tuple. -/
theorem claim_C3_counterexample :
    optimize_roster [wPlayerA] [("A", 0)] (-1) none 5 (fun _ => .ok (-1, [false])) = .ok none
      ∧ optimize_roster [wPlayerA] [("A", 0)] (-1) none 5 (fun _ => .error "reached the solver")
          = .error (.solverFailure "reached the solver") := by
  exact ⟨by decide, rfl⟩

/-- Claim C3 amended: `optimize_roster` performs no input validation.  A
negative budget, non-positive quota counts and an excessive `min_diff` are
embedded verbatim in the model, the model is handed to the solver, and a
non-optimal solver status is reported as the ordinary None-tuple, never as a
validation error. -/
theorem claim_C3_no_validation
    {players : List Player} {reqs : List (String × Int)} {b : Int}
    {prevs : Option (List (List Nat))} {minDiff : Int} {solver : Solver}
    {st : Int} {vals : List Bool}
    (_hinvalid : b < 0 ∨ (∃ pc ∈ reqs, pc.2 ≤ 0) ∨ totalSize reqs < minDiff)
    (hsolve : solver (buildModel players reqs b prevs minDiff) = .ok (st, vals))
    (hst : st ≠ 1) :
    (buildModel players reqs b prevs minDiff).maxSalary = b
      ∧ (buildModel players reqs b prevs minDiff).reqs = reqs
      ∧ optimize_roster players reqs b prevs minDiff solver = .ok none :=
  ⟨rfl, rfl, optimize_roster_not_optimal hsolve hst⟩

/-- Claim C3 amended witness: an input violating all three validation rules. -/
theorem claim_C3_no_validation_witness :
    ((-1 : Int) < 0 ∨ (∃ pc ∈ [(("A" : String), (0 : Int))], pc.2 ≤ 0)
        ∨ totalSize [("A", 0)] < 5)
      ∧ ((buildModel [wPlayerA] [("A", 0)] (-1) none 5).maxSalary = -1
          ∧ (buildModel [wPlayerA] [("A", 0)] (-1) none 5).reqs = [("A", 0)]
          ∧ optimize_roster [wPlayerA] [("A", 0)] (-1) none 5 (fun _ => .ok (-1, [false]))
              = .ok none) :=
  ⟨Or.inl (by decide),
    @claim_C3_no_validation [wPlayerA] [("A", 0)] (-1) none 5 (fun _ => .ok (-1, [false]))
      (-1) [false] (Or.inl (by decide)) (rfl) (by decide)⟩

/-- Claim C5 counterexample: on an optimal status the extraction silently
returns a Selection whose pair count (2) differs from the total required
size (1); no internal error is raised. -/
theorem claim_C5_counterexample :
    optimize_roster [wPlayerA, wPlayerA2] wReqsA 100 none 3 (fun _ => .ok (1, [true, true]))
        = .ok (some (extractSelection [wPlayerA, wPlayerA2]
            (varKeys [wPlayerA, wPlayerA2] wReqsA) [true, true]))
      ∧ (extractSelection [wPlayerA, wPlayerA2]
            (varKeys [wPlayerA, wPlayerA2] wReqsA) [true, true]).pairs.length = 2
      ∧ totalSize wReqsA = 1 := by
  exact ⟨by decide, by decide, by decide⟩

/-- Claim C5 amended: the extraction performs no count check.  On a
non-optimal status the None-tuple is returned; on an optimal status whatever
pairs carry value 1 are returned as the Selection, whether or not their
number equals the total required size — except that an optimal status with
zero selected pairs raises the pandas KeyError of line 131. -/
theorem claim_C5_extraction_unchecked
    {players : List Player} {reqs : List (String × Int)} {b : Int}
    {prevs : Option (List (List Nat))} {minDiff : Int} {solver : Solver}
    {st : Int} {vals : List Bool}
    (hsolve : solver (buildModel players reqs b prevs minDiff) = .ok (st, vals)) :
    (st ≠ 1 → optimize_roster players reqs b prevs minDiff solver = .ok none)
      ∧ (st = 1 → selectedKeys (varKeys players reqs) vals ≠ [] →
          optimize_roster players reqs b prevs minDiff solver
            = .ok (some (extractSelection players (varKeys players reqs) vals)))
      ∧ (st = 1 → selectedKeys (varKeys players reqs) vals = [] →
          optimize_roster players reqs b prevs minDiff solver
            = .error .emptyFrameKeyError) := by
  refine ⟨fun hst => optimize_roster_not_optimal hsolve hst, ?_, ?_⟩
  · intro hst hne
    subst hst
    exact optimize_roster_optimal hsolve hne
  · intro hst he
    subst hst
    exact optimize_roster_optimal_empty hsolve he

/-- Claim C5 amended witness: the mismatched two-pair extraction of the
counterexample instance is indeed what the optimal branch returns. -/
theorem claim_C5_extraction_unchecked_witness :
    ((1 : Int) ≠ 1 → optimize_roster [wPlayerA, wPlayerA2] wReqsA 100 none 3
        (fun _ => .ok (1, [true, true])) = .ok none)
      ∧ ((1 : Int) = 1 → selectedKeys (varKeys [wPlayerA, wPlayerA2] wReqsA) [true, true] ≠ [] →
          optimize_roster [wPlayerA, wPlayerA2] wReqsA 100 none 3 (fun _ => .ok (1, [true, true]))
            = .ok (some (extractSelection [wPlayerA, wPlayerA2]
                (varKeys [wPlayerA, wPlayerA2] wReqsA) [true, true])))
      ∧ ((1 : Int) = 1 → selectedKeys (varKeys [wPlayerA, wPlayerA2] wReqsA) [true, true] = [] →
          optimize_roster [wPlayerA, wPlayerA2] wReqsA 100 none 3 (fun _ => .ok (1, [true, true]))
            = .error .emptyFrameKeyError) :=
  @claim_C5_extraction_unchecked [wPlayerA, wPlayerA2] wReqsA 100 none 3
    (fun _ => .ok (1, [true, true])) 1 [true, true] (rfl)

lemma filter_isEmpty_eq_not_any (l : List VarKey) (q : VarKey → Bool) :
    (l.filter q).isEmpty = !l.any q := by
  induction l with
  | nil => rfl
  | cons x t ih => cases hq : q x <;> simp [List.filter_cons, List.any_cons, hq, ih]

/-- The recorded diversity constraints: one per previous lineup owning at
least one variable, each carrying its overlap variables and the bound
`total_players - min_different_players`. -/
lemma divConstraints_some_eq (players : List Player) (reqs : List (String × Int)) (b minDiff : Int)
    (ls : List (List Nat)) :
    (buildModel players reqs b (some ls) minDiff).divConstraints
      = (ls.filter (fun prev => (varKeys players reqs).any (fun k => decide (k.1 ∈ prev)))).map
          (fun prev => ((varKeys players reqs).filter (fun k => decide (k.1 ∈ prev)),
            totalSize reqs - minDiff)) := by
  rw [buildModel_divConstraints_some]
  induction ls with
  | nil => rfl
  | cons prev t ih =>
    simp only [filter_isEmpty_eq_not_any] at ih ⊢
    rw [List.filterMap_cons, List.filter_cons]
    cases h : (varKeys players reqs).any (fun k => decide (k.1 ∈ prev)) <;> simp [h, ih]

/-- Claim C6, corrected: for a requirement category with zero decision
variables, the builder records the printed WARNING diagnostic, but raises
nothing: the model is still solved, a non-optimal status is returned as the
ordinary None-tuple, and (for a non-zero required count) the model is
unsatisfiable by construction. -/
theorem claim_C6_zero_variable_category
    {players : List Player} {reqs : List (String × Int)} {b : Int}
    {prevs : Option (List (List Nat))} {minDiff : Int} {pc : String × Int}
    (hmem : pc ∈ reqs)
    (hzero : (varKeys players reqs).countP (fun k => decide (k.2 = pc.1)) = 0) :
    pc.1 ∈ (buildModel players reqs b prevs minDiff).warnedPositions
      ∧ (∀ (solver : Solver) (st : Int) (vals : List Bool),
          solver (buildModel players reqs b prevs minDiff) = .ok (st, vals) → st ≠ 1 →
          optimize_roster players reqs b prevs minDiff solver = .ok none)
      ∧ (pc.2 ≠ 0 → ∀ vals : List Bool,
          ¬ Satisfies (buildModel players reqs b prevs minDiff) vals) := by
  refine ⟨?_, ?_, ?_⟩
  · exact List.mem_map_of_mem Prod.fst (List.mem_filter.mpr ⟨hmem, by simp [hzero]⟩)
  · intro solver st vals hsolve hst
    exact optimize_roster_not_optimal hsolve hst
  · rintro hcount vals ⟨hlen, _, _, hpos, _⟩
    simp only [SatPos, buildModel_varKeys, buildModel_reqs] at hpos
    have hle1 : ((varKeys players reqs).zip vals).countP
          (fun kb => kb.2 && decide (kb.1.2 = pc.1))
        ≤ ((varKeys players reqs).zip vals).countP (fun kb => decide (kb.1.2 = pc.1)) := by
      apply List.countP_mono_left
      intro kb _ hkb
      exact (Bool.and_elim_right hkb)
    have hmap : ((varKeys players reqs).zip vals).map Prod.fst = varKeys players reqs := by
      apply List.map_fst_zip
      simp only [buildModel_varKeys] at hlen
      omega
    have hle2 : ((varKeys players reqs).zip vals).countP (fun kb => decide (kb.1.2 = pc.1))
        = (varKeys players reqs).countP (fun k => decide (k.2 = pc.1)) := by
      conv_rhs => rw [← hmap]
      rw [List.countP_map]
      rfl
    have hz : ((varKeys players reqs).zip vals).countP
        (fun kb => kb.2 && decide (kb.1.2 = pc.1)) = 0 := by omega
    have := hpos pc hmem
    rw [hz] at this
    exact hcount (by exact_mod_cast this.symm)

/-- Claim C6 witness: category B has no eligible player, required count 1. -/
theorem claim_C6_witness :
    ("B" ∈ (buildModel [wPlayerA] [(("B" : String), (1 : Int))] 10 none 3).warnedPositions)
      ∧ (∀ (solver : Solver) (st : Int) (vals : List Bool),
          solver (buildModel [wPlayerA] [("B", 1)] 10 none 3) = .ok (st, vals) → st ≠ 1 →
          optimize_roster [wPlayerA] [("B", 1)] 10 none 3 solver = .ok none)
      ∧ ((1 : Int) ≠ 0 → ∀ vals : List Bool,
          ¬ Satisfies (buildModel [wPlayerA] [("B", 1)] 10 none 3) vals) :=
  @claim_C6_zero_variable_category [wPlayerA] [("B", 1)] 10 none 3 ("B", 1)
    (by decide) (by decide)

/-- Claim C2 counterexample: one previous lineup whose only index (1) owns no
decision variable (player 1 is eligible only for B, which is not a quota key)
produces zero diversity constraints, not one per previous lineup. -/
theorem claim_C2_counterexample :
    (buildModel [wPlayerA, wPlayerB] wReqsA 100 (some [[1]]) 3).divConstraints.length = 0
      ∧ ([[1]] : List (List Nat)).length = 1 :=
  ⟨by decide, rfl⟩

/-- Claim C2, corrected: no diversity constraint is added when the
previous-lineups argument is absent or empty; with previous lineups present
there is exactly one constraint per lineup owning at least one variable,
carrying that lineup's overlap variables and the bound
`total_size - min_diff`; and any returned Selection from a
constraint-satisfying optimal solve shares at most `total_size - min_diff`
pairs with each previous lineup that owns at least one variable. -/
theorem claim_C2_diversity_constraints
    {players : List Player} {reqs : List (String × Int)} {b minDiff : Int}
    {ls : List (List Nat)} {solver : Solver} {vals : List Bool} {sel : Selection}
    (hsolve : solver (buildModel players reqs b (some ls) minDiff) = .ok (1, vals))
    (hsat : Satisfies (buildModel players reqs b (some ls) minDiff) vals)
    (hres : optimize_roster players reqs b (some ls) minDiff solver = .ok (some sel)) :
    (buildModel players reqs b none minDiff).divConstraints = []
      ∧ (buildModel players reqs b (some []) minDiff).divConstraints = []
      ∧ (∀ ls' : List (List Nat),
          (buildModel players reqs b (some ls') minDiff).divConstraints
            = (ls'.filter (fun prev =>
                  (varKeys players reqs).any (fun k => decide (k.1 ∈ prev)))).map
                (fun prev => ((varKeys players reqs).filter (fun k => decide (k.1 ∈ prev)),
                  totalSize reqs - minDiff)))
      ∧ (∀ prev ∈ ls, (varKeys players reqs).any (fun k => decide (k.1 ∈ prev)) →
          ((sel.pairs.countP (fun k => decide (k.1 ∈ prev)) : Int))
            ≤ totalSize reqs - minDiff) := by
  refine ⟨rfl, rfl, fun ls' => divConstraints_some_eq players reqs b minDiff ls', ?_⟩
  intro prev hprev hany
  obtain ⟨hlen, _, _, _, hdiv⟩ := hsat
  simp only [SatDiv, buildModel_varKeys] at hdiv
  have hdc : ((varKeys players reqs).filter (fun k => decide (k.1 ∈ prev)),
      totalSize reqs - minDiff) ∈ (buildModel players reqs b (some ls) minDiff).divConstraints := by
    rw [divConstraints_some_eq]
    exact List.mem_map_of_mem _ (List.mem_filter.mpr ⟨hprev, hany⟩)
  have hbound := hdiv _ hdc
  have hsel := result_some_eq hsolve hres
  subst hsel
  simp only [extractSelection_pairs, countP_selectedKeys]
  have hcongr : ((varKeys players reqs).zip vals).countP
        (fun kb => kb.2 && decide (kb.1.1 ∈ prev))
      = ((varKeys players reqs).zip vals).countP
        (fun kb => kb.2 && decide (kb.1 ∈ (varKeys players reqs).filter
          (fun k => decide (k.1 ∈ prev)))) := by
    apply List.countP_congr
    intro kb hkb
    have hk := (List.of_mem_zip hkb).1
    simp [List.mem_filter, hk]
  rw [hcongr]
  exact hbound

/-- Claim C2 witness: two players eligible for A, one previous lineup
containing player 0, `min_diff = 1`, solver returning the other player. -/
theorem claim_C2_witness :
    (buildModel [wPlayerA, wPlayerA2] wReqsA 100 none 1).divConstraints = []
      ∧ (buildModel [wPlayerA, wPlayerA2] wReqsA 100 (some []) 1).divConstraints = []
      ∧ (∀ ls' : List (List Nat),
          (buildModel [wPlayerA, wPlayerA2] wReqsA 100 (some ls') 1).divConstraints
            = (ls'.filter (fun prev =>
                  (varKeys [wPlayerA, wPlayerA2] wReqsA).any (fun k => decide (k.1 ∈ prev)))).map
                (fun prev =>
                  ((varKeys [wPlayerA, wPlayerA2] wReqsA).filter (fun k => decide (k.1 ∈ prev)),
                    totalSize wReqsA - 1)))
      ∧ (∀ prev ∈ ([[0]] : List (List Nat)),
          (varKeys [wPlayerA, wPlayerA2] wReqsA).any (fun k => decide (k.1 ∈ prev)) →
          (((extractSelection [wPlayerA, wPlayerA2] (varKeys [wPlayerA, wPlayerA2] wReqsA)
              [false, true]).pairs.countP (fun k => decide (k.1 ∈ prev)) : Int))
            ≤ totalSize wReqsA - 1) :=
  @claim_C2_diversity_constraints [wPlayerA, wPlayerA2] wReqsA 100 1 [[0]]
    (fun _ => .ok (1, [false, true])) [false, true]
    (extractSelection [wPlayerA, wPlayerA2] (varKeys [wPlayerA, wPlayerA2] wReqsA) [false, true])
    (rfl) (by decide) (by decide)

/-- Claim C6 counterexample: with category B having zero variables and a
required count of 1, no validation error is raised before solving: the model
is handed to the solver (a crashing solver decides the outcome) and an
infeasible-reporting solver yields the ordinary None-tuple; only the printed
warning records the problem. -/
theorem claim_C6_counterexample :
    (buildModel [wPlayerA] [(("B" : String), (1 : Int))] 10 none 3).warnedPositions = ["B"]
      ∧ optimize_roster [wPlayerA] [("B", 1)] 10 none 3 (fun _ => .ok (-1, [])) = .ok none
      ∧ optimize_roster [wPlayerA] [("B", 1)] 10 none 3 (fun _ => .error "reached solve")
          = .error (.solverFailure "reached solve") :=
  ⟨by decide, by decide, rfl⟩

lemma mem_inner_vars_eq {players : List Player} {reqs : List (String × Int)} {idx : Nat}
    {x : VarKey}
    (hx : x ∈ reqs.flatMap (fun pc =>
      if pc.1 ∈ eligiblePositions (playerAt players idx).rosterPosition
      then [(idx, pc.1)] else [])) :
    ∃ pc ∈ reqs, x = (idx, pc.1) := by
  simp only [List.mem_flatMap] at hx
  obtain ⟨pc, hpc, hm⟩ := hx
  refine ⟨pc, hpc, ?_⟩
  split at hm
  · simpa using hm
  · exact absurd hm (List.not_mem_nil x)

/-- With distinct requirement keys (a Python dict invariant), the variable
list has no duplicates. -/
lemma varKeys_nodup {players : List Player} {reqs : List (String × Int)}
    (hnd : (reqs.map Prod.fst).Nodup) : (varKeys players reqs).Nodup := by
  unfold varKeys
  rw [List.nodup_flatMap]
  constructor
  · intro idx _
    rw [List.nodup_flatMap]
    constructor
    · intro pc _
      split <;> simp
    · have hp : reqs.Pairwise (fun a b => a.1 ≠ b.1) := by
        rw [List.Nodup, List.pairwise_map] at hnd
        exact hnd
      refine hp.imp ?_
      intro a b hab x hxa hxb
      have hxa' : x ∈ (if a.1 ∈ eligiblePositions (playerAt players idx).rosterPosition
          then [(idx, a.1)] else []) := hxa
      have hxb' : x ∈ (if b.1 ∈ eligiblePositions (playerAt players idx).rosterPosition
          then [(idx, b.1)] else []) := hxb
      have ha : x = (idx, a.1) := by
        split at hxa'
        · simpa using hxa'
        · exact absurd hxa' (List.not_mem_nil x)
      have hb : x = (idx, b.1) := by
        split at hxb'
        · simpa using hxb'
        · exact absurd hxb' (List.not_mem_nil x)
      exact hab (by rw [ha] at hb; exact (Prod.mk.injEq _ _ _ _).mp hb |>.2)
  · have hlt : (List.range players.length).Pairwise (· < ·) := List.pairwise_lt_range _
    refine hlt.imp ?_
    intro i j hij x hxi hxj
    obtain ⟨_, _, hi⟩ := mem_inner_vars_eq hxi
    obtain ⟨_, _, hj⟩ := mem_inner_vars_eq hxj
    rw [hi] at hj
    have := (Prod.mk.injEq _ _ _ _).mp hj |>.1
    omega

lemma countP_eq_one_of_nodup_mem {l : List VarKey} (d : l.Nodup) {a : VarKey} (h : a ∈ l) :
    l.countP (fun k => decide (k = a)) = 1 := by
  induction l with
  | nil => exact absurd h (List.not_mem_nil a)
  | cons x t ih =>
    rw [List.countP_cons]
    rcases List.mem_cons.mp h with h1 | h1
    · subst h1
      have hx : a ∉ t := (List.nodup_cons.mp d).1
      have ht : t.countP (fun k => decide (k = a)) = 0 :=
        List.countP_eq_zero.mpr (fun k hk hkd =>
          hx ((by simpa using hkd : k = a) ▸ hk))
      simp [ht]
    · have hx : x ∉ t := (List.nodup_cons.mp d).1
      have hne : ¬(x = a) := fun he => hx (he ▸ h1)
      rw [ih (List.nodup_cons.mp d).2 h1]
      simp [hne]

lemma countP_eq_zero_of_not_mem {l : List VarKey} {a : VarKey} (h : a ∉ l) :
    l.countP (fun k => decide (k = a)) = 0 :=
  List.countP_eq_zero.mpr (fun k hk hkd => h ((by simpa using hkd : k = a) ▸ hk))

/-- Any Selection returned by `optimize_roster` is the extraction of some
variable values, whatever the solver did. -/
lemma result_some_shape {p : List Player} {r : List (String × Int)} {b : Int}
    {pl : Option (List (List Nat))} {d : Int} {solver : Solver} {sel : Selection}
    (hres : optimize_roster p r b pl d solver = .ok (some sel)) :
    ∃ vals : List Bool, sel = extractSelection p (varKeys p r) vals := by
  cases hsr : solver (buildModel p r b pl d) with
  | error e =>
    rw [optimize_roster_solver_error hsr] at hres
    exact absurd hres (by simp)
  | ok sv =>
    obtain ⟨st, vals⟩ := sv
    by_cases hst : st = 1
    · subst hst
      by_cases he : selectedKeys (varKeys p r) vals = []
      · rw [optimize_roster_optimal_empty hsr he] at hres
        exact absurd hres (by simp)
      · rw [optimize_roster_optimal hsr he] at hres
        exact ⟨vals, (Option.some.inj (Except.ok.inj hres)).symm⟩
    · rw [optimize_roster_not_optimal hsr hst] at hres
      exact absurd hres (by simp)

/-- Claim C8: with distinct requirement keys, the variable list holds exactly
one variable per (index, category) pair with the category both a requirement
key and among the player's eligible positions (split on "/" and stripped);
every pair of any returned Selection is such a variable, so a player with no
eligible requirement category is never selected. -/
theorem claim_C8_variable_creation
    {players : List Player} {reqs : List (String × Int)}
    (hnd : (reqs.map Prod.fst).Nodup) :
    (∀ (i : Nat) (c : String),
        (varKeys players reqs).countP (fun k => decide (k = (i, c)))
          = if i < players.length ∧ c ∈ reqs.map Prod.fst
                ∧ c ∈ eligiblePositions (playerAt players i).rosterPosition
            then 1 else 0)
      ∧ (∀ (b minDiff : Int) (prevs : Option (List (List Nat))) (solver : Solver)
            (sel : Selection),
          optimize_roster players reqs b prevs minDiff solver = .ok (some sel) →
          (∀ k ∈ sel.pairs, k ∈ varKeys players reqs)
            ∧ (∀ i : Nat,
                (∀ c ∈ eligiblePositions (playerAt players i).rosterPosition,
                  c ∉ reqs.map Prod.fst) →
                i ∉ sel.pairs.map Prod.fst)) := by
  constructor
  · intro i c
    by_cases h : (i, c) ∈ varKeys players reqs
    · have hc := mem_varKeys.mp h
      rw [if_pos hc]
      exact countP_eq_one_of_nodup_mem (varKeys_nodup hnd) h
    · rw [if_neg (fun hc => h (mem_varKeys.mpr hc))]
      exact countP_eq_zero_of_not_mem h
  · intro b minDiff prevs solver sel hres
    obtain ⟨vals, hsel⟩ := result_some_shape hres
    subst hsel
    simp only [extractSelection_pairs]
    constructor
    · exact fun k hk => mem_of_mem_selectedKeys hk
    · intro i hno hmem
      obtain ⟨k, hk, hfst⟩ := List.mem_map.mp hmem
      have hv := mem_varKeys.mp (mem_of_mem_selectedKeys hk)
      exact hno k.2 (hfst ▸ hv.2.2) hv.2.1

/-- Claim C8 witness: player 1 is eligible only for B, which is not a quota
key, so it owns no variable and never appears in a returned Selection. -/
theorem claim_C8_witness :
    (∀ (i : Nat) (c : String),
        (varKeys [wPlayerA, wPlayerB] wReqsA).countP (fun k => decide (k = (i, c)))
          = if i < ([wPlayerA, wPlayerB] : List Player).length ∧ c ∈ wReqsA.map Prod.fst
                ∧ c ∈ eligiblePositions (playerAt [wPlayerA, wPlayerB] i).rosterPosition
            then 1 else 0)
      ∧ (∀ (b minDiff : Int) (prevs : Option (List (List Nat))) (solver : Solver)
            (sel : Selection),
          optimize_roster [wPlayerA, wPlayerB] wReqsA b prevs minDiff solver = .ok (some sel) →
          (∀ k ∈ sel.pairs, k ∈ varKeys [wPlayerA, wPlayerB] wReqsA)
            ∧ (∀ i : Nat,
                (∀ c ∈ eligiblePositions (playerAt [wPlayerA, wPlayerB] i).rosterPosition,
                  c ∉ wReqsA.map Prod.fst) →
                i ∉ sel.pairs.map Prod.fst)) :=
  @claim_C8_variable_creation [wPlayerA, wPlayerB] wReqsA (by decide)

/-- Claim C7: a run of the multi-lineup loop that terminates normally either
completed all `n` rounds, or attempted exactly one round more than the
number of accumulated Selections and that round returned the None-tuple
(with the previous-lineup index sets accumulated from the produced
Selections); either way the outcome is a normal `.ok` result carrying the
produced count, not an error. -/
theorem claim_C7_early_stop
    {players : List Player} {reqs : List (String × Int)} {b minDiff : Int} {solver : Solver} :
    ∀ (n i : Nat) (prevs : List (List Nat)) (sels : List Selection) (att : Nat),
      mainLoopAux players reqs b minDiff solver n i prevs = .ok (sels, att) →
      (sels.length = n ∧ att = n)
        ∨ (sels.length < n ∧ att = sels.length + 1
            ∧ optimize_roster players reqs b
                (if 0 < i + sels.length
                  then some (prevs ++ sels.map (fun s => s.pairs.map Prod.fst)) else none)
                minDiff solver = .ok none) := by
  intro n
  induction n with
  | zero =>
    intro i prevs sels att h
    simp only [mainLoopAux] at h
    obtain ⟨h1, h2⟩ := Prod.mk.injEq .. |>.mp (Except.ok.inj h)
    left
    exact ⟨by simp [← h1], by omega⟩
  | succ n ih =>
    intro i prevs sels att h
    simp only [mainLoopAux] at h
    cases hr : optimize_roster players reqs b (if 0 < i then some prevs else none) minDiff solver with
    | error e =>
      rw [hr] at h
      exact absurd h (by simp)
    | ok osel =>
      rw [hr] at h
      cases osel with
      | none =>
        obtain ⟨h1, h2⟩ := Prod.mk.injEq .. |>.mp (Except.ok.inj h)
        right
        refine ⟨by simp [← h1], by simp [← h1, ← h2], ?_⟩
        have hl : sels.length = 0 := by simp [← h1]
        rw [hl]
        have he : sels.map (fun s => s.pairs.map Prod.fst) = [] := by
          rw [← h1]
          rfl
        rw [he, List.append_nil, Nat.add_zero]
        exact hr
      | some sel =>
        have h' : (match mainLoopAux players reqs b minDiff solver n (i + 1)
              (prevs ++ [sel.pairs.map Prod.fst]) with
            | Except.error e => Except.error e
            | Except.ok (ss, a) => Except.ok (sel :: ss, a + 1)) = Except.ok (sels, att) := h
        cases hr2 : mainLoopAux players reqs b minDiff solver n (i + 1)
            (prevs ++ [sel.pairs.map Prod.fst]) with
        | error e =>
          rw [hr2] at h'
          exact absurd h' (by simp)
        | ok pa =>
          obtain ⟨ss, a⟩ := pa
          rw [hr2] at h'
          obtain ⟨h1, h2⟩ := Prod.mk.injEq .. |>.mp (Except.ok.inj h')
          rcases ih (i + 1) (prevs ++ [sel.pairs.map Prod.fst]) ss a hr2 with
            ⟨g1, g2⟩ | ⟨g1, g2, g3⟩
          · left
            constructor
            · rw [← h1]
              simp [g1]
            · omega
          · right
            have hlen : sels.length = ss.length + 1 := by
              rw [← h1]
              rfl
            refine ⟨by omega, by omega, ?_⟩
            rw [if_pos (by omega)] at g3
            rw [if_pos (by omega)]
            rw [← h1]
            simp only [List.map_cons]
            rw [List.append_assoc] at g3
            simpa using g3

/-- Concrete two-player pool and a solver that succeeds at round 0 and
reports infeasible once any diversity constraint is present. -/
def wPlayersAA : List Player := [wPlayerA, wPlayerA2]

def wSolverC7 : Solver := fun m =>
  if m.divConstraints.isEmpty then .ok (1, [true, false]) else .ok (-1, [false, false])

def wSelAA : Selection := extractSelection wPlayersAA (varKeys wPlayersAA wReqsA) [true, false]

/-- Claim C7 witness: requesting two lineups where only one exists: round 0
succeeds, round 1 is infeasible, the loop stops with one Selection after two
attempted rounds. -/
theorem claim_C7_witness :
    (([wSelAA] : List Selection).length = 2 ∧ (2 : Nat) = 2)
      ∨ (([wSelAA] : List Selection).length < 2 ∧ (2 : Nat) = [wSelAA].length + 1
          ∧ optimize_roster wPlayersAA wReqsA 100
              (if 0 < 0 + ([wSelAA] : List Selection).length
                then some (([] : List (List Nat))
                  ++ [wSelAA].map (fun s => s.pairs.map Prod.fst)) else none)
              3 wSolverC7 = .ok none) :=
  claim_C7_early_stop 2 0 [] [wSelAA] 2 (by decide)

/-- An assignment that satisfies the model and attains the best objective
value among all satisfying assignments of the model's variables. -/
def IsOptimal (m : Model) (vals : List Bool) : Prop :=
  Satisfies m vals ∧
    ∀ vs : List Bool, vs.length = m.varKeys.length → Satisfies m vs →
      objVal m vs ≤ objVal m vals

lemma totalPoints_eq_objVal (p : List Player) (r : List (String × Int)) (b : Int)
    (pl : Option (List (List Nat))) (d : Int) (vals : List Bool) :
    (extractSelection p (varKeys p r) vals).totalPoints
      = objVal (buildModel p r b pl d) vals := by
  simp only [extractSelection_totalPoints, objVal, buildModel_varKeys, buildModel_players]
  rw [sum_selectedKeys]

/-- Claim C9: two round-0 runs on the same inputs whose solvers both return
optimal, constraint-satisfying, objective-maximizing assignments produce
Selections with the same total points, whatever the tie-breaking. -/
theorem claim_C9_deterministic_optimal_value
    {players : List Player} {reqs : List (String × Int)} {b minDiff : Int}
    {solver1 solver2 : Solver} {vals1 vals2 : List Bool} {sel1 sel2 : Selection}
    (hs1 : solver1 (buildModel players reqs b none minDiff) = .ok (1, vals1))
    (ho1 : IsOptimal (buildModel players reqs b none minDiff) vals1)
    (hr1 : optimize_roster players reqs b none minDiff solver1 = .ok (some sel1))
    (hs2 : solver2 (buildModel players reqs b none minDiff) = .ok (1, vals2))
    (ho2 : IsOptimal (buildModel players reqs b none minDiff) vals2)
    (hr2 : optimize_roster players reqs b none minDiff solver2 = .ok (some sel2)) :
    sel1.totalPoints = sel2.totalPoints := by
  have h1 := result_some_eq hs1 hr1
  have h2 := result_some_eq hs2 hr2
  subst h1
  subst h2
  rw [totalPoints_eq_objVal players reqs b none minDiff vals1,
    totalPoints_eq_objVal players reqs b none minDiff vals2]
  have le1 := ho2.2 vals1 ho1.1.1 ho1.1
  have le2 := ho1.2 vals2 ho2.1.1 ho2.1
  omega

/-- All Boolean assignment lists of a given length. -/
def allBoolLists : Nat → List (List Bool)
  | 0 => [[]]
  | n + 1 => (allBoolLists n).flatMap (fun l => [false :: l, true :: l])

lemma mem_allBoolLists : ∀ (n : Nat) (l : List Bool), l.length = n → l ∈ allBoolLists n := by
  intro n
  induction n with
  | zero =>
    intro l hl
    rw [List.length_eq_zero] at hl
    subst hl
    exact List.mem_singleton.mpr rfl
  | succ n ih =>
    intro l hl
    cases l with
    | nil => simp at hl
    | cons bhd tl =>
      have htl : tl.length = n := by simpa using hl
      simp only [allBoolLists, List.mem_flatMap]
      exact ⟨tl, ih tl htl, by cases bhd <;> simp⟩

lemma forall_of_allBoolLists {n : Nat} {P : List Bool → Prop}
    (h : ∀ l ∈ allBoolLists n, P l) : ∀ l : List Bool, l.length = n → P l :=
  fun l hl => h l (mem_allBoolLists n l hl)

/-- Claim C9 witness: two equal-value players for one slot; the two optimal
tie-breaking assignments give Selections with the same total points. -/
theorem claim_C9_witness :
    (extractSelection wPlayersAA (varKeys wPlayersAA wReqsA) [true, false]).totalPoints
      = (extractSelection wPlayersAA (varKeys wPlayersAA wReqsA) [false, true]).totalPoints :=
  @claim_C9_deterministic_optimal_value wPlayersAA wReqsA 100 3
    (fun _ => .ok (1, [true, false])) (fun _ => .ok (1, [false, true]))
    [true, false] [false, true]
    (extractSelection wPlayersAA (varKeys wPlayersAA wReqsA) [true, false])
    (extractSelection wPlayersAA (varKeys wPlayersAA wReqsA) [false, true])
    (rfl) ⟨by decide, forall_of_allBoolLists (by decide)⟩ (by decide)
    (rfl) ⟨by decide, forall_of_allBoolLists (by decide)⟩ (by decide)

end DfOpt
